import Mathlib

/-!
Verification development for the node-cqrs event-sourcing core:
the EventStore (EventStore.js) and the AbstractAggregate runtime.
JavaScript values and plain objects are shallowly embedded; the store's
commit, on and once paths and the aggregate constructor, mutate, emit and
snapshot accessors are translated from the source and their advertised
properties are proved below the definitions.
-/

namespace CqrsModel

/-- Model of a JavaScript runtime value covering the shapes the event-store
and aggregate code paths manipulate: undefined, null, booleans, numbers,
strings and plain objects. An object is the list of its own enumerable
properties in insertion order; as with object literals, a later entry for a
key overrides an earlier one. -/
inductive JsVal where
  | undefined : JsVal
  | null : JsVal
  | bool : Bool → JsVal
  | num : Int → JsVal
  | str : String → JsVal
  | obj : List (String × JsVal) → JsVal

/-- Plain-object carrier: own enumerable properties in insertion order. -/
abbrev JsObj := List (String × JsVal)

/-- Last-match property lookup on an object, so that a duplicated key in a
literal keeps its last value, as in JavaScript. -/
def getProp? : JsObj → String → Option JsVal
  | [], _ => none
  | p :: rest, k =>
    match getProp? rest k with
    | some v => some v
    | none => if p.1 = k then some p.2 else none

/-- Property read, yielding undefined for an absent key. -/
def getProp (o : JsObj) (k : String) : JsVal :=
  (getProp? o k).getD .undefined

/-- Whether the object owns the key. -/
def hasProp (o : JsObj) (k : String) : Bool :=
  (getProp? o k).isSome

/-- JavaScript truthiness of the modelled values. -/
def truthy : JsVal → Bool
  | .undefined => false
  | .null => false
  | .bool b => b
  | .num n => n != 0
  | .str s => s != ""
  | .obj _ => true

/-- Result of the typeof operator on the modelled values. -/
def typeofStr : JsVal → String
  | .undefined => "undefined"
  | .null => "object"
  | .bool _ => "boolean"
  | .num _ => "number"
  | .str _ => "string"
  | .obj _ => "object"

/-- Assignment of one property the way Object.assign performs it: an
existing key is overwritten in place, a new key is appended. -/
def setProp (t : JsObj) (k : String) (v : JsVal) : JsObj :=
  if hasProp t k then t.map fun p => if p.1 = k then (k, v) else p
  else t ++ [(k, v)]

/-- Own enumerable properties contributed by a value used as an
Object.assign source: an object contributes its entries, a string its
index-keyed characters, and the remaining primitives nothing (undefined and
null sources are skipped by Object.assign). -/
def ownProps : JsVal → JsObj
  | .obj o => o
  | .str s => s.toList.enum.map fun p => (toString p.1, JsVal.str (String.mk [p.2]))
  | _ => []

/-- Object.assign of one source object onto a target: each own enumerable
property of the source is assigned onto the target, left to right. -/
def objAssign (t : JsObj) (s : JsObj) : JsObj :=
  s.foldl (fun acc p => setProp acc p.1 p.2) t

theorem getProp?_append (a b : JsObj) (k : String) :
    getProp? (a ++ b) k =
      match getProp? b k with
      | some v => some v
      | none => getProp? a k := by
  induction a with
  | nil => cases h : getProp? b k <;> simp [getProp?, h]
  | cons p rest ih =>
    simp only [List.cons_append, getProp?, List.append_eq]
    rw [ih]
    cases hb : getProp? b k <;> cases hr : getProp? rest k <;> simp [hb, hr]

theorem hasProp_cons (p : String × JsVal) (rest : JsObj) (k : String) :
    hasProp (p :: rest) k = (hasProp rest k || decide (p.1 = k)) := by
  unfold hasProp
  simp only [getProp?]
  cases hr : getProp? rest k
  · by_cases hp : p.1 = k <;> simp [hp]
  · simp

theorem getProp?_replace (t : JsObj) (k : String) (v : JsVal) (k' : String) :
    getProp? (t.map fun p => if p.1 = k then (k, v) else p) k' =
      if k' = k then (if hasProp t k then some v else none) else getProp? t k' := by
  induction t with
  | nil =>
    simp only [List.map_nil, getProp?, hasProp, Option.isSome_none]
    split <;> rfl
  | cons p rest ih =>
    simp only [List.map_cons, getProp?]
    rw [ih]
    by_cases hk : k' = k
    · subst hk
      simp only [eq_self_iff_true, if_true]
      by_cases hh : hasProp rest k'
      · rw [hasProp_cons]
        simp [hh]
      · rw [hasProp_cons]
        by_cases hp : p.1 = k'
        · simp [hh, hp]
        · simp [hh, hp]
    · rw [if_neg hk, if_neg hk]
      cases hr : getProp? rest k'
      · by_cases hp : p.1 = k
        · rw [if_pos hp]
          have h1 : ¬((k, v).1 = k') := fun h => hk h.symm
          have h2 : ¬(p.1 = k') := fun h => hk ((hp.symm.trans h).symm)
          simp [h1, h2]
        · rw [if_neg hp]
      · simp

theorem getProp?_setProp (t : JsObj) (k : String) (v : JsVal) (k' : String) :
    getProp? (setProp t k v) k' = if k' = k then some v else getProp? t k' := by
  unfold setProp
  by_cases h : hasProp t k
  · simp only [h, if_true, getProp?_replace]
  · rw [if_neg h, getProp?_append]
    have h1 : getProp? [(k, v)] k' = if k = k' then some v else none := by
      simp [getProp?]
    rw [h1]
    by_cases hk : k' = k
    · subst hk
      have hn : getProp? t k' = none := by
        cases hg : getProp? t k' with
        | some w => exact absurd (by simp [hasProp, hg]) h
        | none => rfl
      simp [hn]
    · rw [if_neg (fun h' : k = k' => hk h'.symm), if_neg hk]

theorem getProp?_objAssign (t s : JsObj) (k : String) :
    getProp? (objAssign t s) k =
      match getProp? s k with
      | some v => some v
      | none => getProp? t k := by
  induction s generalizing t with
  | nil => simp [objAssign, getProp?]
  | cons p rest ih =>
    show getProp? (objAssign (setProp t p.1 p.2) rest) k = _
    rw [ih]
    simp only [getProp?, getProp?_setProp]
    cases hr : getProp? rest k
    · by_cases hk : k = p.1
      · simp [hk]
      · rw [if_neg hk, if_neg (fun h : p.1 = k => hk h.symm)]
    · simp

/-- Default event validator, from validateEvent in EventStore.js: the event
must be a truthy object, its type a non-empty string, it must carry a truthy
aggregateId or sagaId, and sagaVersion must not be undefined when a truthy
sagaId is present. -/
def validateEvent (event : JsVal) : Except String Unit :=
  match event with
  | .obj o =>
    match getProp o "type" with
    | .str s =>
      if s = "" then .error "event.type must be a non-empty String"
      else if !truthy (getProp o "aggregateId") && !truthy (getProp o "sagaId") then
        .error "either event.aggregateId or event.sagaId is required"
      else if truthy (getProp o "sagaId") &&
          typeofStr (getProp o "sagaVersion") = "undefined" then
        .error "event.sagaVersion is required, when event.sagaId is defined"
      else .ok ()
    | _ => .error "event.type must be a non-empty String"
  | _ => .error "event must be an Object"

/-- Extension object built once per commit by augmentEvents in
EventStore.js: sagaId, sagaVersion and context destructured from the source
command, the context being the hostname-keyed base object extended with the
caller context when a hostname is configured, and the caller context
verbatim otherwise. -/
def commandExtension (sourceCommand : JsObj) (hostname : JsVal) : JsObj :=
  [("sagaId", getProp sourceCommand "sagaId"),
   ("sagaVersion", getProp sourceCommand "sagaVersion"),
   ("context",
     if truthy hostname then
       .obj (objAssign [("hostname", hostname)] (ownProps (getProp sourceCommand "context")))
     else getProp sourceCommand "context")]

/-- Event augmentation, from augmentEvents in EventStore.js: every event of
the array is merged over the extension object onto a fresh target, the
event's own properties taking precedence. EventStream.from with a transform
(EventStream.js is not under src) is modelled from the spec as ordered
per-element mapping over the sequence. -/
def augmentEvents (events : List JsVal) (sourceCommand : JsObj) (hostname : JsVal) :
    List JsVal :=
  events.map fun event =>
    .obj (objAssign (objAssign [] (commandExtension sourceCommand hostname)) (ownProps event))

/-- Store configuration, defaults hostname undefined and publishAsync true. -/
structure StoreConfig where
  hostname : JsVal
  publishAsync : Bool

/-- Behavior of the collaborators during one commit call: whether the
storage commitEvents operation rejects, how the bus publish responds per
event, and whether a bus is wired at all. -/
structure Collaborators where
  commitEventsResult : Option String
  publish : JsVal → Except String Unit
  hasBus : Bool

/-- Observable outcome of one commit call: the settled result together with
the calls made to the storage commit operation and to the bus publish
operation; publications scheduled through setImmediate in async mode are
recorded as deferred rather than as awaited publish calls. -/
structure CommitOutcome where
  result : Except String (List JsVal)
  commitCalls : List (List JsVal)
  publishCalls : List JsVal
  deferred : List JsVal

/-- Sequential validation of the stream, as the forEach over the validator:
the first validation error aborts. -/
def validateAll (validator : JsVal → Except String Unit) :
    List JsVal → Except String Unit
  | [] => .ok ()
  | e :: rest =>
    match validator e with
    | .error m => .error m
    | .ok () => validateAll validator rest

/-- First rejection among the per-event publish promises, as observed by the
Promise.all over the mapped stream. -/
def firstPublishError (publish : JsVal → Except String Unit) :
    List JsVal → Option String
  | [] => none
  | e :: rest =>
    match publish e with
    | .error m => some m
    | .ok () => firstPublishError publish rest

/-- EventStore.commit: an empty array is returned unchanged with no
collaborator call; otherwise the events are augmented, each augmented event
is validated (any failure rejects before storage is touched), the stream is
handed to the storage commitEvents operation, and, when a bus is present,
every event is published, awaited when publishAsync is false so that a
publish failure rejects the commit, or deferred through setImmediate when
publishAsync is true. -/
def commit (cfg : StoreConfig) (col : Collaborators)
    (validator : JsVal → Except String Unit)
    (events : List JsVal) (sourceCommand : Option JsObj) : CommitOutcome :=
  if events.isEmpty then
    { result := .ok events, commitCalls := [], publishCalls := [], deferred := [] }
  else
    let stream := augmentEvents events (sourceCommand.getD []) cfg.hostname
    match validateAll validator stream with
    | .error m =>
      { result := .error m, commitCalls := [], publishCalls := [], deferred := [] }
    | .ok () =>
      match col.commitEventsResult with
      | some m =>
        { result := .error m, commitCalls := [stream], publishCalls := [], deferred := [] }
      | none =>
        if col.hasBus then
          if cfg.publishAsync then
            { result := .ok stream, commitCalls := [stream], publishCalls := [],
              deferred := stream }
          else
            match firstPublishError col.publish stream with
            | some m =>
              { result := .error m, commitCalls := [stream], publishCalls := stream,
                deferred := [] }
            | none =>
              { result := .ok stream, commitCalls := [stream], publishCalls := stream,
                deferred := [] }
        else
          { result := .ok stream, commitCalls := [stream], publishCalls := [], deferred := [] }

theorem validateAll_ok (validator : JsVal → Except String Unit) (l : List JsVal)
    (h : ∀ e ∈ l, validator e = .ok ()) : validateAll validator l = .ok () := by
  induction l with
  | nil => rfl
  | cons e rest ih =>
    simp only [validateAll, h e (List.mem_cons_self e rest)]
    exact ih fun e' he' => h e' (List.mem_cons_of_mem e he')

theorem validateAll_error (validator : JsVal → Except String Unit) (l : List JsVal)
    (h : ∃ e ∈ l, ∃ m, validator e = .error m) :
    ∃ m, validateAll validator l = .error m := by
  induction l with
  | nil => obtain ⟨e, he, _⟩ := h; exact absurd he (List.not_mem_nil e)
  | cons e rest ih =>
    cases hv : validator e with
    | error m => exact ⟨m, by simp [validateAll, hv]⟩
    | ok u =>
      obtain ⟨e', he', m, hm⟩ := h
      rcases List.mem_cons.mp he' with rfl | he'
      · rw [hv] at hm; cases hm
      · obtain ⟨m', hm'⟩ := ih ⟨e', he', m, hm⟩
        exact ⟨m', by cases u; simp [validateAll, hv, hm']⟩

theorem firstPublishError_isSome (publish : JsVal → Except String Unit) (l : List JsVal)
    (h : ∃ e ∈ l, ∃ m, publish e = .error m) :
    ∃ m, firstPublishError publish l = some m := by
  induction l with
  | nil => obtain ⟨e, he, _⟩ := h; exact absurd he (List.not_mem_nil e)
  | cons e rest ih =>
    cases hv : publish e with
    | error m => exact ⟨m, by simp [firstPublishError, hv]⟩
    | ok u =>
      obtain ⟨e', he', m, hm⟩ := h
      rcases List.mem_cons.mp he' with rfl | he'
      · rw [hv] at hm; cases hm
      · obtain ⟨m', hm'⟩ := ih ⟨e', he', m, hm⟩
        exact ⟨m', by cases u; simp [firstPublishError, hv, hm']⟩

theorem firstPublishError_none (publish : JsVal → Except String Unit) (l : List JsVal)
    (h : ∀ e, publish e = .ok ()) : firstPublishError publish l = none := by
  induction l with
  | nil => rfl
  | cons e rest ih => simp [firstPublishError, h e, ih]

/-- C9: commit called with an empty array resolves to the input unchanged,
the empty array, and performs no storage call and no bus publish. -/
theorem C9_commit_empty_noop (cfg : StoreConfig) (col : Collaborators)
    (validator : JsVal → Except String Unit) (sourceCommand : Option JsObj) :
    commit cfg col validator [] sourceCommand =
      { result := .ok [], commitCalls := [], publishCalls := [], deferred := [] } := rfl

/-- C2: if any augmented event fails the default validator, commit rejects
and neither the storage commit operation nor any bus publish (awaited or
deferred) is invoked, so nothing is partially persisted. -/
theorem C2_commit_validation_failure_aborts (cfg : StoreConfig) (col : Collaborators)
    (events : List JsVal) (sourceCommand : Option JsObj)
    (h : ∃ e ∈ augmentEvents events (sourceCommand.getD []) cfg.hostname,
         ∃ m, validateEvent e = .error m) :
    (∃ m, (commit cfg col validateEvent events sourceCommand).result = .error m) ∧
    (commit cfg col validateEvent events sourceCommand).commitCalls = [] ∧
    (commit cfg col validateEvent events sourceCommand).publishCalls = [] ∧
    (commit cfg col validateEvent events sourceCommand).deferred = [] := by
  obtain ⟨m, hva⟩ :=
    validateAll_error validateEvent (augmentEvents events (sourceCommand.getD []) cfg.hostname) h
  have hne : events.isEmpty = false := by
    obtain ⟨e, he, _⟩ := h
    cases events with
    | nil => simp [augmentEvents] at he
    | cons a rest => rfl
  refine ⟨⟨m, ?_⟩, ?_, ?_, ?_⟩ <;> simp [commit, hne, hva]

/-- Witness instantiating C2 on a one-event array missing the required type
field, with an undefined hostname and a bus that would publish fine. -/
theorem C2_commit_validation_failure_aborts_witness :
    (commit ⟨.undefined, true⟩ ⟨none, fun _ => .ok (), true⟩ validateEvent
        [.obj [("payload", .num 1)]] none).commitCalls = [] ∧
    (commit ⟨.undefined, true⟩ ⟨none, fun _ => .ok (), true⟩ validateEvent
        [.obj [("payload", .num 1)]] none).publishCalls = [] := by
  have hyp : ∃ e ∈ augmentEvents [.obj [("payload", .num 1)]]
      ((none : Option JsObj).getD []) (JsVal.undefined), ∃ m, validateEvent e = .error m := by
    refine ⟨.obj [("sagaId", .undefined), ("sagaVersion", .undefined), ("context", .undefined),
      ("payload", .num 1)], ?_, "event.type must be a non-empty String", rfl⟩
    rw [show augmentEvents [.obj [("payload", .num 1)]] ((none : Option JsObj).getD [])
        (JsVal.undefined) =
      [.obj [("sagaId", .undefined), ("sagaVersion", .undefined), ("context", .undefined),
        ("payload", .num 1)]] from rfl]
    exact List.mem_singleton.mpr rfl
  obtain ⟨h1, h2, h3, h4⟩ := C2_commit_validation_failure_aborts ⟨.undefined, true⟩
    ⟨none, fun _ => .ok (), true⟩ [.obj [("payload", .num 1)]] none hyp
  exact ⟨h2, h3⟩

/-- C3: with publishAsync false and a bus present, a publish failure on an
otherwise valid commit propagates as the rejection of the commit call, every
event of the committed stream was handed to publish and awaited, no deferral
happened, and the storage commit already took place and is not rolled back. -/
theorem C3_sync_publish_failure_propagates (cfg : StoreConfig) (col : Collaborators)
    (events : List JsVal) (sourceCommand : Option JsObj)
    (hasync : cfg.publishAsync = false) (hbus : col.hasBus = true)
    (hstore : col.commitEventsResult = none)
    (hvalid : ∀ e ∈ augmentEvents events (sourceCommand.getD []) cfg.hostname,
        validateEvent e = .ok ())
    (hfail : ∃ e ∈ augmentEvents events (sourceCommand.getD []) cfg.hostname,
        ∃ m, col.publish e = .error m) :
    (∃ m, (commit cfg col validateEvent events sourceCommand).result = .error m) ∧
    (commit cfg col validateEvent events sourceCommand).commitCalls =
      [augmentEvents events (sourceCommand.getD []) cfg.hostname] ∧
    (commit cfg col validateEvent events sourceCommand).publishCalls =
      augmentEvents events (sourceCommand.getD []) cfg.hostname ∧
    (commit cfg col validateEvent events sourceCommand).deferred = [] := by
  obtain ⟨m, hfp⟩ := firstPublishError_isSome col.publish _ hfail
  have hne : events.isEmpty = false := by
    obtain ⟨e, he, _⟩ := hfail
    cases events with
    | nil => simp [augmentEvents] at he
    | cons a rest => rfl
  have hva := validateAll_ok validateEvent _ hvalid
  refine ⟨⟨m, ?_⟩, ?_, ?_, ?_⟩ <;>
    simp [commit, hne, hva, hstore, hbus, hasync, hfp]

/-- Witness instantiating C3 on a valid one-event commit whose bus publish
rejects: the commit rejects while the storage call still happened. -/
theorem C3_sync_publish_failure_propagates_witness :
    (∃ m, (commit ⟨.undefined, false⟩ ⟨none, fun _ => .error "publish down", true⟩ validateEvent
        [.obj [("type", .str "E"), ("aggregateId", .str "a1")]] none).result = .error m) ∧
    (commit ⟨.undefined, false⟩ ⟨none, fun _ => .error "publish down", true⟩ validateEvent
        [.obj [("type", .str "E"), ("aggregateId", .str "a1")]] none).commitCalls ≠ [] := by
  have hstream : augmentEvents [.obj [("type", .str "E"), ("aggregateId", .str "a1")]]
      ((none : Option JsObj).getD []) (JsVal.undefined) =
      [.obj [("sagaId", .undefined), ("sagaVersion", .undefined), ("context", .undefined),
        ("type", .str "E"), ("aggregateId", .str "a1")]] := rfl
  obtain ⟨h1, h2, h3, h4⟩ := C3_sync_publish_failure_propagates ⟨.undefined, false⟩
    ⟨none, fun _ => .error "publish down", true⟩
    [.obj [("type", .str "E"), ("aggregateId", .str "a1")]] none rfl rfl rfl
    (by
      intro e he
      rw [hstream] at he
      rw [List.mem_singleton.mp he]
      rfl)
    (by
      refine ⟨.obj [("sagaId", .undefined), ("sagaVersion", .undefined), ("context", .undefined),
        ("type", .str "E"), ("aggregateId", .str "a1")], ?_, "publish down", rfl⟩
      rw [hstream]
      exact List.mem_singleton.mpr rfl)
  refine ⟨h1, ?_⟩
  rw [h2, hstream]
  simp

theorem getD_map_of_lt {α β : Type} (f : α → β) (l : List α) (i : Nat) (d : β) (d' : α)
    (h : i < l.length) : (l.map f).getD i d = f (l.getD i d') := by
  induction l generalizing i with
  | nil => exact absurd h (by simp)
  | cons a rest ih =>
    cases i with
    | zero => rfl
    | succ n => exact ih n (Nat.lt_of_succ_lt_succ h)

theorem getProp?_assign_present (t s : JsObj) (k : String) (v : JsVal)
    (h : getProp? s k = some v) : getProp? (objAssign t s) k = some v := by
  rw [getProp?_objAssign, h]

theorem getProp?_assign_absent (t s : JsObj) (k : String)
    (h : getProp? s k = none) : getProp? (objAssign t s) k = getProp? t k := by
  rw [getProp?_objAssign, h]

theorem getProp?_commandExtension_sagaId (sc : JsObj) (h : JsVal) :
    getProp? (commandExtension sc h) "sagaId" = some (getProp sc "sagaId") := by
  simp [commandExtension, getProp?]

theorem getProp?_commandExtension_sagaVersion (sc : JsObj) (h : JsVal) :
    getProp? (commandExtension sc h) "sagaVersion" = some (getProp sc "sagaVersion") := by
  simp [commandExtension, getProp?]

theorem getProp?_commandExtension_context (sc : JsObj) (h : JsVal) :
    getProp? (commandExtension sc h) "context" =
      some (if truthy h then
          .obj (objAssign [("hostname", h)] (ownProps (getProp sc "context")))
        else getProp sc "context") := by
  simp [commandExtension, getProp?]

/-- C1: on a valid non-empty event array, with storage accepting and
publication either deferred or succeeding, commit resolves to a stream of
the input length whose i-th element is the i-th input event merged
non-destructively over the extension: the event's own properties win,
sagaId, sagaVersion and context fall back to the source command, and a
configured truthy hostname is added to the merged context with
caller-supplied context keys taking precedence over the hostname key. -/
theorem C1_commit_resolves_augmented (cfg : StoreConfig) (col : Collaborators)
    (events : List JsVal) (sourceCommand : Option JsObj)
    (hne : events ≠ [])
    (hvalid : ∀ e ∈ augmentEvents events (sourceCommand.getD []) cfg.hostname,
        validateEvent e = .ok ())
    (hstore : col.commitEventsResult = none)
    (hpub : cfg.publishAsync = true ∨ ∀ e, col.publish e = .ok ()) :
    ∃ out, (commit cfg col validateEvent events sourceCommand).result = .ok out ∧
      out.length = events.length ∧
      ∀ i, i < events.length →
        ∃ oo, out.getD i .undefined = .obj oo ∧
          (∀ k v, getProp? (ownProps (events.getD i .undefined)) k = some v →
             getProp? oo k = some v) ∧
          (getProp? (ownProps (events.getD i .undefined)) "sagaId" = none →
             getProp? oo "sagaId" = some (getProp (sourceCommand.getD []) "sagaId")) ∧
          (getProp? (ownProps (events.getD i .undefined)) "sagaVersion" = none →
             getProp? oo "sagaVersion" = some (getProp (sourceCommand.getD []) "sagaVersion")) ∧
          (getProp? (ownProps (events.getD i .undefined)) "context" = none →
            (truthy cfg.hostname = false →
               getProp? oo "context" = some (getProp (sourceCommand.getD []) "context")) ∧
            (truthy cfg.hostname = true →
              ∃ co, getProp? oo "context" = some (.obj co) ∧
                (∀ k v,
                   getProp? (ownProps (getProp (sourceCommand.getD []) "context")) k =
                       some v →
                     getProp? co k = some v) ∧
                (getProp? (ownProps (getProp (sourceCommand.getD []) "context"))
                      "hostname" = none →
                   getProp? co "hostname" = some cfg.hostname))) := by
  refine ⟨augmentEvents events (sourceCommand.getD []) cfg.hostname, ?_, ?_, ?_⟩
  · have hne' : events.isEmpty = false := by
      cases events with
      | nil => exact absurd rfl hne
      | cons a rest => rfl
    have hva := validateAll_ok validateEvent _ hvalid
    rcases hpub with hasync | hpubok
    · by_cases hb : col.hasBus <;> simp [commit, hne', hva, hstore, hb, hasync]
    · have hfp := firstPublishError_none col.publish
        (augmentEvents events (sourceCommand.getD []) cfg.hostname) hpubok
      by_cases hb : col.hasBus
      · cases hpa : cfg.publishAsync <;> simp [commit, hne', hva, hstore, hb, hpa, hfp]
      · simp [commit, hne', hva, hstore, hb]
  · simp [augmentEvents]
  · intro i hi
    have hmap : (augmentEvents events (sourceCommand.getD []) cfg.hostname).getD i .undefined =
        .obj (objAssign (objAssign [] (commandExtension (sourceCommand.getD []) cfg.hostname))
          (ownProps (events.getD i .undefined))) := by
      unfold augmentEvents
      exact getD_map_of_lt _ events i JsVal.undefined JsVal.undefined hi
    refine ⟨_, hmap, ?_, ?_, ?_, ?_⟩
    · intro k v hkv
      exact getProp?_assign_present _ _ _ _ hkv
    · intro h0
      rw [getProp?_assign_absent _ _ _ h0]
      exact getProp?_assign_present _ _ _ _ (getProp?_commandExtension_sagaId _ _)
    · intro h0
      rw [getProp?_assign_absent _ _ _ h0]
      exact getProp?_assign_present _ _ _ _ (getProp?_commandExtension_sagaVersion _ _)
    · intro h0
      constructor
      · intro hh
        rw [getProp?_assign_absent _ _ _ h0,
          getProp?_assign_present _ _ _ _ (getProp?_commandExtension_context _ _)]
        simp [hh]
      · intro hh
        refine ⟨objAssign [("hostname", cfg.hostname)]
          (ownProps (getProp (sourceCommand.getD []) "context")), ?_, ?_, ?_⟩
        · rw [getProp?_assign_absent _ _ _ h0,
            getProp?_assign_present _ _ _ _ (getProp?_commandExtension_context _ _)]
          simp [hh]
        · intro k v hkv
          exact getProp?_assign_present _ _ _ _ hkv
        · intro hnone
          rw [getProp?_assign_absent _ _ _ hnone]
          simp [getProp?]

/-- Witness instantiating C1: committing one event with a source command
carrying a saga, a caller context and a configured hostname resolves with a
one-element stream. -/
theorem C1_commit_resolves_augmented_witness :
    ∃ out, (commit ⟨.str "host1", true⟩ ⟨none, fun _ => .ok (), true⟩ validateEvent
        [.obj [("type", .str "E"), ("aggregateId", .str "a1")]]
        (some [("sagaId", .str "s1"), ("sagaVersion", .num 3),
          ("context", .obj [("ip", .str "x")])])).result = .ok out ∧
      out.length = 1 := by
  obtain ⟨out, h1, h2, h3⟩ := C1_commit_resolves_augmented ⟨.str "host1", true⟩
    ⟨none, fun _ => .ok (), true⟩
    [.obj [("type", .str "E"), ("aggregateId", .str "a1")]]
    (some [("sagaId", .str "s1"), ("sagaVersion", .num 3),
      ("context", .obj [("ip", .str "x")])])
    (by simp)
    (by
      intro e he
      rw [show augmentEvents [.obj [("type", .str "E"), ("aggregateId", .str "a1")]]
          ((some [("sagaId", .str "s1"), ("sagaVersion", .num 3),
            ("context", .obj [("ip", .str "x")])] : Option JsObj).getD [])
          (JsVal.str "host1") =
        [.obj [("sagaId", .str "s1"), ("sagaVersion", .num 3),
          ("context", .obj [("hostname", .str "host1"), ("ip", .str "x")]),
          ("type", .str "E"), ("aggregateId", .str "a1")]] from rfl] at he
      rw [List.mem_singleton.mp he]
      rfl)
    rfl (Or.inl rfl)
  exact ⟨out, h1, h2.trans rfl⟩

/-- Aggregate runtime state, from AbstractAggregate: the symbol-keyed
private fields id, version, changes and optional state. The state object's
mutate capability is abstracted as a function on a state type. -/
structure Aggregate (σ : Type) where
  id : JsVal
  version : Nat
  changes : List JsVal
  state : Option σ

/-- AbstractAggregate.mutate: calls state.mutate on the event when a state
object is present, and always increments the version. -/
def Aggregate.mutate {σ : Type} (m : σ → JsVal → σ) (a : Aggregate σ) (event : JsVal) :
    Aggregate σ :=
  { a with state := a.state.map fun s => m s event, version := a.version + 1 }

/-- AbstractAggregate constructor: requires a truthy options.id, starts at
version 0 with an empty changes list and options.state when provided, then
replays each supplied historical event through mutate in the given order.
The typed embedding makes the missing-options and non-array options.events
argument errors unrepresentable; validateHandlers (a utility whose source is
not under src) is modelled from the spec as passing for a well-wired
aggregate subtype, since its failures concern command-handler wiring only. -/
def Aggregate.create {σ : Type} (m : σ → JsVal → σ) (id : JsVal) (state : Option σ)
    (events : Option (List JsVal)) : Except String (Aggregate σ) :=
  if !truthy id then .error "options.id argument required"
  else
    let a : Aggregate σ := { id := id, version := 0, changes := [], state := state }
    .ok ((events.getD []).foldl (fun acc e => acc.mutate m e) a)

/-- AbstractAggregate.emit: requires a non-empty string event type, builds
the event carrying the aggregate id and the version current at emission,
applies it through mutate, then appends it to changes. A non-string
eventType is unrepresentable in the typed embedding; the empty string is
the representable rejection. -/
def Aggregate.emit {σ : Type} (m : σ → JsVal → σ) (a : Aggregate σ) (eventType : String)
    (eventPayload : JsVal) : Except String (Aggregate σ) :=
  if eventType = "" then .error "eventType argument must be a non-empty string"
  else
    let event : JsVal := .obj [("aggregateId", a.id), ("version", .num a.version),
      ("type", .str eventType), ("payload", eventPayload)]
    let a2 := a.mutate m event
    .ok { a2 with changes := a2.changes ++ [event] }

mutual

/-- Value-level effect of a JSON.stringify and JSON.parse round trip:
undefined serializes to nothing, primitives and objects survive with their
undefined-valued members dropped. -/
def jsonStrip : JsVal → Option JsVal
  | .undefined => none
  | .null => some .null
  | .bool b => some (.bool b)
  | .num n => some (.num n)
  | .str s => some (.str s)
  | .obj o => some (.obj (jsonStripEntries o))

/-- Member filtering of the round trip: entries whose value does not
serialize are dropped. -/
def jsonStripEntries : List (String × JsVal) → List (String × JsVal)
  | [] => []
  | (k, v) :: rest =>
    match jsonStrip v with
    | none => jsonStripEntries rest
    | some w => (k, w) :: jsonStripEntries rest

end

/-- AbstractAggregate.snapshot: JSON.parse applied to
JSON.stringify(this.state). When the state is absent, stringify yields
undefined, JSON.parse coerces it to the text undefined and throws a
SyntaxError; otherwise the round trip returns the detached stripped copy. -/
def Aggregate.snapshot {σ : Type} (enc : σ → JsVal) (a : Aggregate σ) :
    Except String JsVal :=
  match jsonStrip (match a.state with | none => JsVal.undefined | some s => enc s) with
  | none => .error "SyntaxError: Unexpected token u in JSON at position 0"
  | some w => .ok w

theorem foldl_mutate_version {σ : Type} (m : σ → JsVal → σ) (events : List JsVal)
    (a : Aggregate σ) :
    (events.foldl (fun acc e => acc.mutate m e) a).version = a.version + events.length := by
  induction events generalizing a with
  | nil => rfl
  | cons e rest ih =>
    show (rest.foldl (fun acc e => acc.mutate m e) (a.mutate m e)).version = _
    rw [ih]
    simp [Aggregate.mutate, List.length_cons]
    omega

theorem foldl_mutate_changes {σ : Type} (m : σ → JsVal → σ) (events : List JsVal)
    (a : Aggregate σ) :
    (events.foldl (fun acc e => acc.mutate m e) a).changes = a.changes := by
  induction events generalizing a with
  | nil => rfl
  | cons e rest ih =>
    show (rest.foldl (fun acc e => acc.mutate m e) (a.mutate m e)).changes = _
    rw [ih]
    rfl

theorem foldl_mutate_state {σ : Type} (m : σ → JsVal → σ) (events : List JsVal)
    (a : Aggregate σ) :
    (events.foldl (fun acc e => acc.mutate m e) a).state =
      a.state.map fun s => events.foldl m s := by
  induction events generalizing a with
  | nil => cases h : a.state <;> simp [h]
  | cons e rest ih =>
    show (rest.foldl (fun acc e => acc.mutate m e) (a.mutate m e)).state = _
    rw [ih]
    cases h : a.state <;> simp [Aggregate.mutate, h]

theorem foldl_mutate_id {σ : Type} (m : σ → JsVal → σ) (events : List JsVal)
    (a : Aggregate σ) :
    (events.foldl (fun acc e => acc.mutate m e) a).id = a.id := by
  induction events generalizing a with
  | nil => rfl
  | cons e rest ih =>
    show (rest.foldl (fun acc e => acc.mutate m e) (a.mutate m e)).id = _
    rw [ih]
    rfl

/-- C4: constructing an aggregate over a list of N historical events replays
each through mutate in order, the state object being mutated exactly when
present, and yields version N with an empty changes list. -/
theorem C4_replay_reaches_version {σ : Type} (m : σ → JsVal → σ) (id : JsVal)
    (st : Option σ) (events : List JsVal) (h : truthy id = true) :
    ∃ a, Aggregate.create m id st (some events) = .ok a ∧
      a.version = events.length ∧ a.changes = [] ∧
      a.state = st.map fun s => events.foldl m s := by
  refine ⟨(events.foldl (fun acc e => acc.mutate m e)
    { id := id, version := 0, changes := [], state := st }), ?_, ?_, ?_, ?_⟩
  · simp [Aggregate.create, h]
  · rw [foldl_mutate_version]
    simp
  · rw [foldl_mutate_changes]
  · rw [foldl_mutate_state]

/-- Witness instantiating C4: replaying two events over a counting state
reaches version 2 with no changes. -/
theorem C4_replay_reaches_version_witness :
    ∃ a, Aggregate.create (fun (s : Nat) (_ : JsVal) => s + 1) (.str "a1") (some 0)
        (some [.obj [("type", .str "E1")], .obj [("type", .str "E2")]]) = .ok a ∧
      a.version = 2 ∧ a.changes = [] ∧ a.state = some 2 := by
  obtain ⟨a, h1, h2, h3, h4⟩ := C4_replay_reaches_version
    (fun (s : Nat) (_ : JsVal) => s + 1) (.str "a1") (some 0)
    [.obj [("type", .str "E1")], .obj [("type", .str "E2")]] (by rfl)
  exact ⟨a, h1, h2.trans rfl, h3, h4.trans rfl⟩

/-- C5: emit with a non-empty event type appends exactly the event carrying
the aggregate id, the pre-emission version, the type and the payload to
changes, and leaves the aggregate one version further. -/
theorem C5_emit_stamps_current_version {σ : Type} (m : σ → JsVal → σ)
    (a : Aggregate σ) (t : String) (p : JsVal) (h : t ≠ "") :
    ∃ a2, Aggregate.emit m a t p = .ok a2 ∧
      a2.changes = a.changes ++ [.obj [("aggregateId", a.id), ("version", .num a.version),
        ("type", .str t), ("payload", p)]] ∧
      a2.version = a.version + 1 := by
  unfold Aggregate.emit
  rw [if_neg h]
  exact ⟨_, rfl, rfl, rfl⟩

/-- Witness instantiating C5 on a version 3 aggregate: the appended change
is stamped with version 3 and the aggregate moves to version 4. -/
theorem C5_emit_stamps_current_version_witness :
    ∃ a2, Aggregate.emit (fun (s : Nat) (_ : JsVal) => s + 1)
        { id := .str "a1", version := 3, changes := [], state := some 7 } "Created"
        (.num 42) = .ok a2 ∧
      a2.changes = [.obj [("aggregateId", .str "a1"), ("version", .num 3),
        ("type", .str "Created"), ("payload", .num 42)]] ∧
      a2.version = 4 := by
  obtain ⟨a2, h1, h2, h3⟩ := C5_emit_stamps_current_version
    (fun (s : Nat) (_ : JsVal) => s + 1)
    { id := .str "a1", version := 3, changes := [], state := some 7 } "Created"
    (.num 42) (by simp)
  exact ⟨a2, h1, h2.trans rfl, h3⟩

/-- C10: on an aggregate constructed without a state object, reading the
snapshot property throws the JSON.parse SyntaxError coming from the
serialize then parse round trip of the undefined state, rather than
producing undefined or an empty copy. -/
theorem C10_snapshot_without_state_throws {σ : Type} (m : σ → JsVal → σ) (id : JsVal)
    (events : Option (List JsVal)) (enc : σ → JsVal) (a : Aggregate σ)
    (h : Aggregate.create m id none events = .ok a) :
    Aggregate.snapshot enc a = .error "SyntaxError: Unexpected token u in JSON at position 0" := by
  have hst : a.state = none := by
    unfold Aggregate.create at h
    cases ht : truthy id with
    | false =>
      rw [ht] at h
      simp at h
    | true =>
      rw [ht] at h
      simp only [Bool.not_true] at h
      rw [if_neg (by simp : ¬(false = true))] at h
      cases h
      rw [foldl_mutate_state]
      rfl
  unfold Aggregate.snapshot
  rw [hst]
  simp [jsonStrip]

/-- Witness instantiating C10: a stateless aggregate built from one
historical event rejects the snapshot read. -/
theorem C10_snapshot_without_state_throws_witness :
    Aggregate.snapshot (fun n : Nat => .num n)
        { id := .str "a1", version := 1, changes := [], state := (none : Option Nat) } =
      .error "SyntaxError: Unexpected token u in JSON at position 0" :=
  C10_snapshot_without_state_throws (fun (s : Nat) (_ : JsVal) => s) (.str "a1")
    (some [.obj [("type", .str "E")]]) (fun n : Nat => .num n)
    { id := .str "a1", version := 1, changes := [], state := (none : Option Nat) } rfl

/-- Truthiness of the destructured queueName option of EventStore.on. -/
def queueNameTruthy : Option String → Bool
  | none => false
  | some q => q != ""

/-- What EventStore.on registered on the underlying emitter for a message
type: the caller handler directly, or the hostname-filtering wrapper around
it used by the named-queue emulation. Handlers are identified by number. -/
inductive Registration where
  | plain (handlerId : Nat)
  | hostnameFiltered (handlerId : Nat)

/-- Subscription bookkeeping of one store: the namedQueues map keyed by
queueName:messageType, and the registrations handed to the emitter. -/
structure SubState where
  namedQueues : List (String × Nat)
  emitterRegs : List (String × Registration)

/-- Member read, as in event.context or ctx.hostname: throws a TypeError on
undefined and null bases, yields undefined on other primitive bases. -/
def getMember (v : JsVal) (k : String) : Except String JsVal :=
  match v with
  | .undefined => .error "TypeError: cannot read properties of undefined"
  | .null => .error "TypeError: cannot read properties of null"
  | .obj o => .ok (getProp o k)
  | _ => .ok .undefined

/-- JS strict equality restricted to the comparisons this code path makes:
structural on primitives; two object values read from different places are
distinct references and compare unequal. -/
def jsStrictEq : JsVal → JsVal → Bool
  | .undefined, .undefined => true
  | .null, .null => true
  | .bool a, .bool b => a == b
  | .num a, .num b => a == b
  | .str a, .str b => a == b
  | _, _ => false

/-- EventStore.on: rejects an empty message type, then either takes the
named-queue emulation path when a truthy queueName is given and the emitter
lacks native queue support — requiring a truthy configured hostname,
rejecting a duplicate queueName:messageType key, recording the handler and
registering the hostname-filtering wrapper on the emitter — or delegates the
handler directly to the emitter. The handler-is-a-function check is
unrepresentable for numeric handler ids. -/
def storeOn (hostname : JsVal) (emitterHasQueues : Bool) (s : SubState)
    (messageType : String) (handlerId : Nat) (queueName : Option String) :
    Except String SubState :=
  if messageType = "" then
    .error "messageType argument must be a non-empty String"
  else if queueNameTruthy queueName && !emitterHasQueues then
    if !truthy hostname then
      .error "handler could not be set up, unique config.hostname is required for named queue subscriptions"
    else
      let handlerKey := queueName.getD "" ++ ":" ++ messageType
      if (s.namedQueues.lookup handlerKey).isSome then
        .error "handler already set up on this node"
      else
        .ok { namedQueues := s.namedQueues ++ [(handlerKey, handlerId)],
              emitterRegs := s.emitterRegs ++ [(messageType, .hostnameFiltered handlerId)] }
  else
    .ok { s with emitterRegs := s.emitterRegs ++ [(messageType, .plain handlerId)] }

/-- Delivery of one event to a registration: the named-queue wrapper reads
event.context.hostname and returns without calling the handler unless it
strictly equals the configured hostname. Yields the id of the handler
invoked, if any. -/
def deliver (hostname : JsVal) (r : Registration) (event : JsVal) :
    Except String (Option Nat) :=
  match r with
  | .plain h => .ok (some h)
  | .hostnameFiltered h =>
    match getMember event "context" with
    | .error m => .error m
    | .ok ctx =>
      match getMember ctx "hostname" with
      | .error m => .error m
      | .ok evHost =>
        if !jsStrictEq evHost hostname then .ok none
        else .ok (some h)

/-- C7: a named-queue subscription on a bus without native queue support
registers the hostname-filtering wrapper, and that wrapper invokes the
caller handler exactly on delivered events whose context.hostname strictly
equals the configured hostname, silently skipping events whose
context.hostname differs. -/
theorem C7_named_queue_hostname_filter (hostname : JsVal) (s s2 : SubState)
    (messageType : String) (handlerId : Nat) (qn : String) (hqn : qn ≠ "")
    (hreg : storeOn hostname false s messageType handlerId (some qn) = .ok s2) :
    s2.emitterRegs = s.emitterRegs ++ [(messageType, .hostnameFiltered handlerId)] ∧
    ∀ event ctx evHost, getMember event "context" = .ok ctx →
      getMember ctx "hostname" = .ok evHost →
      ((jsStrictEq evHost hostname = true →
          deliver hostname (.hostnameFiltered handlerId) event = .ok (some handlerId)) ∧
       (jsStrictEq evHost hostname = false →
          deliver hostname (.hostnameFiltered handlerId) event = .ok none)) := by
  constructor
  · unfold storeOn at hreg
    by_cases hmt : messageType = ""
    · rw [if_pos hmt] at hreg
      cases hreg
    · rw [if_neg hmt] at hreg
      rw [if_pos (by simp [queueNameTruthy, hqn] : (queueNameTruthy (some qn) && !false) = true)]
        at hreg
      by_cases hh : (!truthy hostname) = true
      · rw [if_pos hh] at hreg
        cases hreg
      · rw [if_neg hh] at hreg
        simp only [Option.getD_some] at hreg
        by_cases hd : ((s.namedQueues.lookup (qn ++ ":" ++ messageType)).isSome) = true
        · rw [if_pos hd] at hreg
          cases hreg
        · rw [if_neg hd] at hreg
          cases hreg
          rfl
  · intro event ctx evHost hctx hhost
    exact ⟨fun heq => by simp [deliver, hctx, hhost, heq],
           fun heq => by simp [deliver, hctx, hhost, heq]⟩

/-- Witness instantiating C7: with hostname host1 configured, an event
committed on host2 is skipped and an event committed on host1 reaches
handler 5. -/
theorem C7_named_queue_hostname_filter_witness :
    deliver (.str "host1") (.hostnameFiltered 5)
        (.obj [("type", .str "E"), ("context", .obj [("hostname", .str "host1")])]) =
      .ok (some 5) ∧
    deliver (.str "host1") (.hostnameFiltered 5)
        (.obj [("type", .str "E"), ("context", .obj [("hostname", .str "host2")])]) =
      .ok none := by
  have hreg : storeOn (.str "host1") false ⟨[], []⟩ "E" 5 (some "q1") =
      .ok ⟨[("q1:E", 5)], [("E", .hostnameFiltered 5)]⟩ := rfl
  obtain ⟨hregs, hdel⟩ := C7_named_queue_hostname_filter (.str "host1") ⟨[], []⟩
    ⟨[("q1:E", 5)], [("E", .hostnameFiltered 5)]⟩ "E" 5 "q1" (by simp) hreg
  constructor
  · exact (hdel (.obj [("type", .str "E"), ("context", .obj [("hostname", .str "host1")])])
      (.obj [("hostname", .str "host1")]) (.str "host1") rfl rfl).1 rfl
  · exact (hdel (.obj [("type", .str "E"), ("context", .obj [("hostname", .str "host2")])])
      (.obj [("hostname", .str "host2")]) (.str "host2") rfl rfl).2 rfl

theorem lookup_append_right {β : Type} (a b : List (String × β)) (k : String)
    (h : a.lookup k = none) : (a ++ b).lookup k = b.lookup k := by
  induction a with
  | nil => rfl
  | cons p rest ih =>
    simp only [List.lookup] at h ⊢
    cases hk : (k == p.1) with
    | true => rw [hk] at h; cases h
    | false =>
      rw [hk] at h
      simp only [List.cons_append, List.lookup, hk]
      exact ih h

/-- C8: named-queue emulation on one node rejects a duplicate registration
of the same queueName and messageType pair while the first registration
stays recorded, and a named-queue subscription without a configured truthy
hostname is rejected before anything is registered. -/
theorem C8_named_queue_duplicate_and_hostname_errors (hostname : JsVal) (s s2 : SubState)
    (messageType : String) (handlerId : Nat) (qn : String)
    (hq : qn ≠ "")
    (hreg : storeOn hostname false s messageType handlerId (some qn) = .ok s2) :
    (∀ handlerId2, storeOn hostname false s2 messageType handlerId2 (some qn) =
        .error "handler already set up on this node") ∧
    s2.namedQueues.lookup (qn ++ ":" ++ messageType) = some handlerId ∧
    (∀ hostname2 s0 messageType2 handlerId2 qn2, messageType2 ≠ "" → qn2 ≠ "" →
      truthy hostname2 = false →
      storeOn hostname2 false s0 messageType2 handlerId2 (some qn2) =
        .error "handler could not be set up, unique config.hostname is required for named queue subscriptions") := by
  have hqt : (queueNameTruthy (some qn) && !false) = true := by
    simp [queueNameTruthy, hq]
  unfold storeOn at hreg
  by_cases hmt : messageType = ""
  · rw [if_pos hmt] at hreg
    cases hreg
  · rw [if_neg hmt] at hreg
    rw [if_pos hqt] at hreg
    by_cases hh : (!truthy hostname) = true
    · rw [if_pos hh] at hreg
      cases hreg
    · rw [if_neg hh] at hreg
      simp only [Option.getD_some] at hreg
      by_cases hd : ((s.namedQueues.lookup (qn ++ ":" ++ messageType)).isSome) = true
      · rw [if_pos hd] at hreg
        cases hreg
      · rw [if_neg hd] at hreg
        cases hreg
        have hlook : (s.namedQueues ++
            [(qn ++ ":" ++ messageType, handlerId)]).lookup (qn ++ ":" ++ messageType) =
            some handlerId := by
          rw [lookup_append_right]
          · simp [List.lookup]
          · cases hl : s.namedQueues.lookup (qn ++ ":" ++ messageType) with
            | none => rfl
            | some v => rw [hl] at hd; simp at hd
        refine ⟨?_, hlook, ?_⟩
        · intro handlerId2
          unfold storeOn
          rw [if_neg hmt, if_pos hqt, if_neg hh]
          simp [hlook]
        · intro hostname2 s0 messageType2 handlerId2 qn2 hmt2 hq2 hf2
          unfold storeOn
          rw [if_neg hmt2, if_pos (by simp [queueNameTruthy, hq2] :
              (queueNameTruthy (some qn2) && !false) = true),
            if_pos (by simp [hf2] : (!truthy hostname2) = true)]

/-- Witness instantiating C8: a second q1 and E registration errors while
the first stays looked up, and a store with undefined hostname rejects the
subscription. -/
theorem C8_named_queue_duplicate_and_hostname_errors_witness :
    storeOn (.str "host1") false ⟨[("q1:E", 5)], [("E", .hostnameFiltered 5)]⟩ "E" 9
        (some "q1") = .error "handler already set up on this node" ∧
    storeOn .undefined false ⟨[], []⟩ "E" 5 (some "q1") =
      .error "handler could not be set up, unique config.hostname is required for named queue subscriptions" := by
  obtain ⟨hdup, hlook, hnohost⟩ := C8_named_queue_duplicate_and_hostname_errors
    (.str "host1") ⟨[], []⟩ ⟨[("q1:E", 5)], [("E", .hostnameFiltered 5)]⟩ "E" 5 "q1"
    (by simp) rfl
  exact ⟨hdup 9, hnohost .undefined ⟨[], []⟩ "E" 5 "q1" (by simp) (by simp) rfl⟩

/-- Event as seen by the one-time subscription machinery of EventStore.once:
a message type plus a payload the optional filter can inspect. -/
structure Msg where
  type : String
  payload : JsVal

/-- State of one once-subscription: the message types the filtered handler
is still attached to, the handled latch, the resolve calls made on the
pending promise, and the caller-handler invocations. -/
structure OnceState where
  active : List String
  handled : Bool
  resolvedWith : List Msg
  handlerCalls : List Msg

/-- Argument validation of EventStore.once: every listed message type must
be a non-empty string; a single bare string input is normalized to a
one-element list before this check and is covered by the list input. The
initial state attaches the filtered handler to every listed type. -/
def onceSetup (messageTypes : List String) : Except String OnceState :=
  if messageTypes.any (fun t => t = "") then
    .error "messageType argument must be either a non-empty String or an Array of non-empty Strings"
  else
    .ok { active := messageTypes, handled := false, resolvedWith := [], handlerCalls := [] }

/-- The early return guard of the filtered handler: a supplied filter that
rejects the event. -/
def filterRejects (flt : Option (Msg → Bool)) (e : Msg) : Bool :=
  match flt with
  | some f => !f e
  | none => false

/-- Acceptance by the optional filter: an absent filter accepts anything. -/
def filterAccepts (flt : Option (Msg → Bool)) (e : Msg) : Bool :=
  match flt with
  | some f => f e
  | none => true

/-- One delivered event flowing through the filteredHandler of
EventStore.once. The emitter delivery contract (a listener receives exactly
the events of types it is currently attached to, in publish order) is
modelled from the spec, EventStore.once supplying the listener: an event of
a still-attached type is dropped when the filter rejects it, ignored when
the handled latch is already set, and otherwise sets the latch, detaches
from every listed type, invokes the optional handler and resolves the
pending promise with the event. -/
def onceStep (flt : Option (Msg → Bool)) (hasHandler : Bool) (s : OnceState) (e : Msg) :
    OnceState :=
  if s.active.contains e.type then
    if filterRejects flt e then s
    else if s.handled then s
    else
      { active := [], handled := true,
        resolvedWith := s.resolvedWith ++ [e],
        handlerCalls := s.handlerCalls ++ (if hasHandler then [e] else []) }
  else s

/-- Folding a published event sequence through the once-subscription. -/
def onceRun (flt : Option (Msg → Bool)) (hasHandler : Bool) (s : OnceState)
    (events : List Msg) : OnceState :=
  events.foldl (onceStep flt hasHandler) s

/-- An event qualifies when its type is among the subscribed ones and the
optional filter accepts it. -/
def qualifies (messageTypes : List String) (flt : Option (Msg → Bool)) (e : Msg) : Bool :=
  messageTypes.contains e.type && filterAccepts flt e

theorem filterRejects_not (flt : Option (Msg → Bool)) (e : Msg) :
    filterRejects flt e = !filterAccepts flt e := by
  cases flt <;> rfl

theorem onceRun_detached (flt : Option (Msg → Bool)) (hasHandler : Bool)
    (s : OnceState) (events : List Msg) (h : s.active = []) :
    onceRun flt hasHandler s events = s := by
  induction events with
  | nil => rfl
  | cons e rest ih =>
    show onceRun flt hasHandler (onceStep flt hasHandler s e) rest = s
    have hstep : onceStep flt hasHandler s e = s := by
      unfold onceStep
      rw [h]
      rfl
    rw [hstep, ih]

theorem onceRun_characterization (messageTypes : List String)
    (flt : Option (Msg → Bool)) (hasHandler : Bool) (events : List Msg) :
    onceRun flt hasHandler
      { active := messageTypes, handled := false, resolvedWith := [], handlerCalls := [] }
      events =
      match events.find? (qualifies messageTypes flt) with
      | none =>
        { active := messageTypes, handled := false, resolvedWith := [], handlerCalls := [] }
      | some e =>
        { active := [], handled := true, resolvedWith := [e],
          handlerCalls := if hasHandler then [e] else [] } := by
  induction events with
  | nil => rfl
  | cons e rest ih =>
    show onceRun flt hasHandler (onceStep flt hasHandler _ e) rest = _
    by_cases hq : qualifies messageTypes flt e = true
    · have hmem := (Bool.and_eq_true_iff.mp hq).1
      have hacc := (Bool.and_eq_true_iff.mp hq).2
      have hrej : filterRejects flt e = false := by
        rw [filterRejects_not, hacc]
        rfl
      have hstep : onceStep flt hasHandler
          ⟨messageTypes, false, [], []⟩ e =
          ⟨[], true, [e], if hasHandler then [e] else []⟩ := by
        unfold onceStep
        rw [if_pos hmem, hrej]
        rfl
      rw [hstep, onceRun_detached _ _ _ _ rfl, List.find?_cons_of_pos _ hq]
    · have hstep : onceStep flt hasHandler
          ⟨messageTypes, false, [], []⟩ e =
          ⟨messageTypes, false, [], []⟩ := by
        unfold onceStep
        by_cases hmem : messageTypes.contains e.type = true
        · have hacc : filterAccepts flt e = false := by
            cases hac : filterAccepts flt e with
            | false => rfl
            | true =>
              exact absurd (show qualifies messageTypes flt e = true by
                unfold qualifies
                rw [hmem, hac]
                rfl) hq
          have hrej : filterRejects flt e = true := by
            rw [filterRejects_not, hacc]
            rfl
          rw [if_pos hmem, hrej]
          rfl
        · rw [if_neg hmem]
      rw [hstep, ih, List.find?_cons_of_neg _ hq]

/-- C6: a one-time subscription resolves exactly once, with the first
delivered event across the listed types that satisfies the filter; the
optional handler runs on exactly that event, hence at most once even when
further qualifying events are published afterwards, and after resolution the
subscription is removed from every listed type. -/
theorem C6_once_resolves_once (messageTypes : List String) (flt : Option (Msg → Bool))
    (hasHandler : Bool) (events : List Msg) (s0 : OnceState)
    (hsetup : onceSetup messageTypes = .ok s0) :
    (onceRun flt hasHandler s0 events).resolvedWith =
      (events.find? (qualifies messageTypes flt)).toList ∧
    (onceRun flt hasHandler s0 events).handlerCalls =
      (if hasHandler then (events.find? (qualifies messageTypes flt)).toList else []) ∧
    (∀ e, events.find? (qualifies messageTypes flt) = some e →
      (onceRun flt hasHandler s0 events).active = []) := by
  have hs0 : s0 = ⟨messageTypes, false, [], []⟩ := by
    unfold onceSetup at hsetup
    by_cases hbad : messageTypes.any (fun t => t = "") = true
    · rw [if_pos hbad] at hsetup
      cases hsetup
    · rw [if_neg hbad] at hsetup
      cases hsetup
      rfl
  subst hs0
  rw [onceRun_characterization]
  cases hf : events.find? (qualifies messageTypes flt) with
  | none =>
    refine ⟨rfl, by simp, ?_⟩
    intro e he
    cases he
  | some e =>
    refine ⟨rfl, by cases hasHandler <;> rfl, ?_⟩
    intro e2 _
    rfl

/-- Witness instantiating C6 on types A and B with a truthiness filter: the
first qualifying event is the B event, the handler fires on it alone, and a
later qualifying A event is ignored. -/
theorem C6_once_resolves_once_witness :
    (onceRun (some fun e => truthy e.payload) true
        { active := ["A", "B"], handled := false, resolvedWith := [], handlerCalls := [] }
        [⟨"A", .num 0⟩, ⟨"B", .num 1⟩, ⟨"A", .num 2⟩]).resolvedWith = [⟨"B", .num 1⟩] ∧
    (onceRun (some fun e => truthy e.payload) true
        { active := ["A", "B"], handled := false, resolvedWith := [], handlerCalls := [] }
        [⟨"A", .num 0⟩, ⟨"B", .num 1⟩, ⟨"A", .num 2⟩]).handlerCalls = [⟨"B", .num 1⟩] ∧
    (onceRun (some fun e => truthy e.payload) true
        { active := ["A", "B"], handled := false, resolvedWith := [], handlerCalls := [] }
        [⟨"A", .num 0⟩, ⟨"B", .num 1⟩, ⟨"A", .num 2⟩]).active = [] := by
  obtain ⟨h1, h2, h3⟩ := C6_once_resolves_once ["A", "B"] (some fun e => truthy e.payload)
    true [⟨"A", .num 0⟩, ⟨"B", .num 1⟩, ⟨"A", .num 2⟩]
    { active := ["A", "B"], handled := false, resolvedWith := [], handlerCalls := [] } rfl
  have hf : ([⟨"A", .num 0⟩, ⟨"B", .num 1⟩, ⟨"A", .num 2⟩] : List Msg).find?
      (qualifies ["A", "B"] (some fun e => truthy e.payload)) = some ⟨"B", .num 1⟩ := rfl
  refine ⟨?_, ?_, h3 ⟨"B", .num 1⟩ hf⟩
  · rw [h1, hf]
    rfl
  · rw [h2, hf]
    rfl

end CqrsModel
